import Mathlib

set_option maxHeartbeats 1000000

/-! Shallow embedding of the Tetris rules engine of src/tetris.rs.

Machine integers of the source (i16, i32) are modelled as Int for
coordinates and indices, and the monotone counters (score, level,
rows completed) as Nat; nothing in the claims approaches the wrap
boundary of the corresponding machine types.  The thread-local random
generator is modelled as an explicit stream of naturals together with a
cursor, and gen_range(0, SHAPE_COUNT) reads the stream modulo 7.  The
assert! bounds checks in get_grid_cell are modelled by an Option result.
The two source loops without a structural bound (the ghost-row search in
move_shape and the row-compaction scan in complete_rows, which really can
run forever on a board whose top row has no void cell) take an explicit
fuel argument. -/

/-- Cell state tag, GridCellType in tetris.rs. -/
inductive GridCellType
  | Void
  | Fixed
  | Shape
  | Ghost
deriving DecidableEq

/-- One cell of the board, GridCell in tetris.rs. -/
structure GridCell where
  cell_type : GridCellType
  shape_index : Int
deriving DecidableEq

/-- Default GridCell: Void with shape_index -1 (impl Default for GridCell). -/
def defaultGridCell : GridCell := ⟨GridCellType.Void, -1⟩

/-- A point of a tetromino: an x/y offset from the anchor. -/
structure Point where
  x : Int
  y : Int
deriving DecidableEq

/-- The width of the game board. -/
abbrev COL_COUNT : Int := 10
/-- The height of the game board. -/
abbrev ROW_COUNT : Int := 22
/-- The number of tetrominoes. -/
abbrev SHAPE_COUNT : Int := 7
/-- Rows the player must complete before going to a new level. -/
abbrev ROWS_PER_LEVEL : Nat := 10
/-- The square shape is exempt from rotation. -/
abbrev SQUARE_SHAPE_INDEX : Int := 1

/-- A shape is exactly 4 points. -/
abbrev ShapeArr := Fin 4 → Point

/-- The SHAPES constant of tetris.rs: 7 shapes of 4 points each. -/
def SHAPES : Fin 7 → ShapeArr :=
  ![![⟨0, 0⟩, ⟨-1, 0⟩, ⟨0, -1⟩, ⟨1, 0⟩],
    ![⟨0, 0⟩, ⟨-1, 0⟩, ⟨-1, -1⟩, ⟨0, -1⟩],
    ![⟨0, 0⟩, ⟨0, -1⟩, ⟨-1, -1⟩, ⟨1, 0⟩],
    ![⟨0, 0⟩, ⟨0, -1⟩, ⟨1, -1⟩, ⟨-1, 0⟩],
    ![⟨0, 0⟩, ⟨1, 0⟩, ⟨1, -1⟩, ⟨-1, 0⟩],
    ![⟨0, 0⟩, ⟨-1, 0⟩, ⟨-1, -1⟩, ⟨1, 0⟩],
    ![⟨0, 0⟩, ⟨-1, 0⟩, ⟨-2, 0⟩, ⟨1, 0⟩]]

/-- The board: COL_COUNT by ROW_COUNT cells, indexed grid[col][row]. -/
abbrev Grid := Fin 10 → Fin 22 → GridCell

/-- The all-Void board (clear_grid / the initializer in Tetris::new). -/
def emptyGrid : Grid := fun _ _ => defaultGridCell

/-- Read a cell at integer coordinates; only ever used behind an
in-bounds check, mirroring the usize casts of the source. -/
def getCell (g : Grid) (x y : Int) : GridCell :=
  if hx : 0 ≤ x ∧ x < 10 then
    if hy : 0 ≤ y ∧ y < 22 then g ⟨x.toNat, by omega⟩ ⟨y.toNat, by omega⟩
    else defaultGridCell
  else defaultGridCell

/-- Rewrite the cell at integer coordinates (x, y) through f; coordinates
outside the board leave the grid unchanged, which is exactly the
point_in_bounds guard of for_each_cell. -/
def setCellI (g : Grid) (x y : Int) (f : GridCell → GridCell) : Grid :=
  fun c r => if (c : Int) = x ∧ (r : Int) = y then f (g c r) else g c r

/-- Tetris::transform_point: absolute grid coordinates of a shape point. -/
def transformPoint (col row : Int) (p : Point) : Point :=
  ⟨col + p.x, row + p.y⟩

/-- Tetris::point_in_bounds. -/
def pointInBounds (col row : Int) (p : Point) : Bool :=
  decide (0 ≤ (transformPoint col row p).x ∧ (transformPoint col row p).x < COL_COUNT ∧
          0 ≤ (transformPoint col row p).y ∧ (transformPoint col row p).y < ROW_COUNT)

/-- Tetris::valid_location: the placement is valid unless some point is
horizontally out of bounds (when check_sides is requested), or below the
floor, or lands in-bounds on a Fixed cell.  Points above the top of the
board are permitted. -/
def validLocation (g : Grid) (shape : ShapeArr) (col row : Int) (check_sides : Bool) : Bool :=
  decide (∀ i : Fin 4,
    ¬((check_sides = true ∧
        ((transformPoint col row (shape i)).x < 0 ∨
          COL_COUNT ≤ (transformPoint col row (shape i)).x)) ∨
      ROW_COUNT ≤ (transformPoint col row (shape i)).y ∨
      (pointInBounds col row (shape i) = true ∧
        (getCell g (transformPoint col row (shape i)).x
          (transformPoint col row (shape i)).y).cell_type = GridCellType.Fixed)))

/-- Tetris::for_each_cell: apply f to the in-bounds cells covered by the
shape placed at (col, row), in point order. -/
def forEachCell (g : Grid) (shape : ShapeArr) (col row : Int) (f : GridCell → GridCell) : Grid :=
  (List.finRange 4).foldl
    (fun acc i =>
      if pointInBounds col row (shape i) then
        setCellI acc (transformPoint col row (shape i)).x
          (transformPoint col row (shape i)).y f
      else acc) g

/-- Cell (c, r) is covered by the shape placed at (col, row). -/
def hitBy (shape : ShapeArr) (col row : Int) (c : Fin 10) (r : Fin 22) : Prop :=
  ∃ i : Fin 4, (transformPoint col row (shape i)).x = (c : Int) ∧
    (transformPoint col row (shape i)).y = (r : Int)

instance (shape : ShapeArr) (col row : Int) (c : Fin 10) (r : Fin 22) :
    Decidable (hitBy shape col row c r) := by
  unfold hitBy; infer_instance

/-- The Tetris struct of tetris.rs.  The rand::ThreadRng is modelled by
the stream rng with cursor rngIdx. -/
structure Tetris where
  grid : Grid
  game_over : Bool
  shape : ShapeArr
  next_shape : ShapeArr
  col : Int
  row : Int
  ghost_row : Int
  shape_index : Int
  next_shape_index : Int
  level : Nat
  rows_completed_level : Nat
  score : Nat
  rows_completed : Nat
  rng : Nat → Nat
  rngIdx : Nat

/-- Tetris::new with an explicit random stream in place of thread_rng. -/
def Tetris.new (rng : Nat → Nat) : Tetris :=
  { grid := emptyGrid
    game_over := true
    shape_index := 0
    next_shape_index := 0
    shape := SHAPES 0
    next_shape := SHAPES 0
    col := 0
    row := 0
    ghost_row := 0
    level := 0
    score := 0
    rows_completed := 0
    rows_completed_level := 0
    rng := rng
    rngIdx := 0 }

/-- rng.gen_range(0, SHAPE_COUNT): draw the next stream value, reduced
modulo 7 so the result lies in [0, SHAPE_COUNT). -/
def nextRand (s : Tetris) : Int × Tetris :=
  (((s.rng s.rngIdx % 7 : Nat) : Int), { s with rngIdx := s.rngIdx + 1 })

/-- SHAPES[i as usize] for an index produced by gen_range (always in
[0, 7) there; out-of-range indices fall back to shape 0). -/
def shapesAt (i : Int) : ShapeArr :=
  if h : 0 ≤ i ∧ i < 7 then SHAPES ⟨i.toNat, by omega⟩ else SHAPES 0

/-- Tetris::clear_shape: void the cells of the current shape at its
current position, then revert the Ghost cells at the ghost row. -/
def Tetris.clear_shape (s : Tetris) : Tetris :=
  let g1 := forEachCell s.grid s.shape s.col s.row
    (fun c => { c with cell_type := GridCellType.Void, shape_index := -1 })
  let g2 := forEachCell g1 s.shape s.col s.ghost_row
    (fun c => if c.cell_type = GridCellType.Ghost
              then { c with cell_type := GridCellType.Void } else c)
  { s with grid := g2 }

/-- The ghost-row search loop inside Tetris::move_shape: starting from the
current row, advance while one row lower is still a valid location.  The
source loop is unbounded; every shape contains the point (0, 0), so it
advances fewer than ROW_COUNT times from any in-bounds row, well below
the fuel used at the call site. -/
def ghostRowAux (g : Grid) (shape : ShapeArr) (col : Int) : Int → Nat → Int
  | gr, 0 => gr
  | gr, fuel + 1 =>
    if validLocation g shape col (gr + 1) true then ghostRowAux g shape col (gr + 1) fuel
    else gr

/-- Fuel for the ghost-row search: from any row of the board the search
advances at most ROW_COUNT - 1 times before hitting the floor. -/
def GHOST_FUEL : Nat := 24

/-- Tetris::move_shape: optionally clear the old footprint, write the new
footprint as Shape cells, recompute the ghost row and mark its free cells
Ghost. -/
def Tetris.move_shape (s : Tetris) (col row : Int) (clear_before : Bool) : Tetris :=
  let s1 := if clear_before then s.clear_shape else s
  let g1 := forEachCell s1.grid s1.shape col row
    (fun c => { c with cell_type := GridCellType.Shape, shape_index := s1.shape_index })
  let gr := ghostRowAux g1 s1.shape col row GHOST_FUEL
  let g2 := forEachCell g1 s1.shape col gr
    (fun c => if c.cell_type = GridCellType.Void
              then { c with cell_type := GridCellType.Ghost } else c)
  { s1 with grid := g2, ghost_row := gr }

/-- Tetris::set_col. -/
def Tetris.set_col (s : Tetris) (col : Int) : Tetris × Bool :=
  if s.game_over then (s, false)
  else
    let result := decide (0 ≤ col ∧ col < COL_COUNT) &&
      validLocation s.grid s.shape col s.row true
    if result then ({ s.move_shape col s.row true with col := col }, true)
    else (s, false)

/-- Tetris::set_row. -/
def Tetris.set_row (s : Tetris) (row : Int) : Tetris × Bool :=
  if s.game_over then (s, false)
  else
    let result := decide (0 ≤ row ∧ row < ROW_COUNT) &&
      validLocation s.grid s.shape s.col row true
    if result then ({ s.move_shape s.col row true with row := row }, true)
    else (s, false)

/-- Tetris::rotate_shape: move every point to the next quadrant. -/
def rotate_shape (clockwise : Bool) (shape : ShapeArr) : ShapeArr :=
  fun i =>
    if clockwise then ⟨-(shape i).y, (shape i).x⟩
    else ⟨(shape i).y, -(shape i).x⟩

/-- The inner loop of Tetris::wall_kick: slide kick_col by increment until
this point's x coordinate is within the side walls.  The source loop is
unbounded (and would spin forever if asked to kick a point that moves away
from the walls); all real shape offsets are within ±2, so the fuel of 32
used at the call site is never exhausted on a reachable state. -/
def wallKickColForPoint (col inc : Int) (p : Point) : Nat → Int
  | 0 => col
  | fuel + 1 =>
    if col + p.x < 0 ∨ COL_COUNT ≤ col + p.x then wallKickColForPoint (col + inc) inc p fuel
    else col

/-- Tetris::wall_kick: pick the kick direction toward the board center,
then return the first kicked column (in point order) that is a fully valid
location, or -1 when none is. -/
def Tetris.wall_kick (s : Tetris) (shape : ShapeArr) : Int :=
  if s.shape_index ≠ SQUARE_SHAPE_INDEX then
    let inc : Int := if s.col < COL_COUNT / 2 then 1 else -1
    match (List.finRange 4).find? (fun i =>
      validLocation s.grid shape (wallKickColForPoint s.col inc (shape i) 32) s.row true) with
    | some i => wallKickColForPoint s.col inc (shape i) 32
    | none => -1
  else s.col

/-- Tetris::rotate. -/
def Tetris.rotate (s : Tetris) (clockwise : Bool) : Tetris × Bool :=
  if s.game_over then (s, false)
  else
    let shape := if s.shape_index ≠ SQUARE_SHAPE_INDEX
                 then rotate_shape clockwise s.shape else s.shape
    if validLocation s.grid shape s.col s.row false then
      let col := s.wall_kick shape
      if 0 ≤ col then
        let s1 := s.clear_shape
        let s2 := { s1 with shape := shape, col := col }
        (s2.move_shape col s2.row false, true)
      else (s, false)
    else (s, false)

/-- Tetris::new_shape: promote the next shape to active at the spawn
anchor, draw a fresh next shape, and place the piece when the spawn
location is valid.  The returned flag is false when the spawn is blocked. -/
def Tetris.new_shape (s : Tetris) : Tetris × Bool :=
  let s1 := { s with row := 0, col := COL_COUNT / 2 }
  let d := nextRand s1
  let s3 := { d.2 with shape_index := d.2.next_shape_index
                       next_shape_index := d.1
                       next_shape := shapesAt d.1
                       shape := shapesAt d.2.next_shape_index }
  if validLocation s3.grid s3.shape s3.col s3.row true then
    (s3.move_shape s3.col s3.row false, true)
  else (s3, false)

/-- Tetris::start_game. -/
def Tetris.start_game (s : Tetris) : Tetris :=
  if s.game_over then
    let s1 := { s with game_over := false
                       level := 0
                       score := 0
                       rows_completed := 0
                       rows_completed_level := 0
                       grid := emptyGrid }
    let d := nextRand s1
    let s3 := { d.2 with next_shape_index := d.1, next_shape := shapesAt d.1 }
    s3.new_shape.1
  else s

/-- Tetris::end_game. -/
def Tetris.end_game (s : Tetris) : Tetris :=
  { s with game_over := true }

/-- Tetris::shape_to_grid: fix the current shape onto the board. -/
def Tetris.shape_to_grid (s : Tetris) : Tetris :=
  { s with grid := (forEachCell s.grid s.shape s.col s.row
      (fun c => { c with cell_type := GridCellType.Fixed })) }

/-- Tetris::get_grid_cell; the two assert! bounds checks are modelled by
returning none exactly when one of them would fire. -/
def Tetris.get_grid_cell (s : Tetris) (col row : Int) : Option GridCell :=
  if 0 ≤ col ∧ col ≤ COL_COUNT - 1 then
    if 0 ≤ row ∧ row ≤ ROW_COUNT - 1 then some (getCell s.grid col row)
    else none
  else none

/-- Rewrite the cell at natural-number coordinates; out-of-range
coordinates leave the grid unchanged. -/
def updateCellN (g : Grid) (cn rn : Nat) (v : GridCell) : Grid :=
  fun c r => if (c : Nat) = cn ∧ (r : Nat) = rn then v else g c r

/-- Read the cell at natural-number coordinates. -/
def readCellN (g : Grid) (cn rn : Nat) : GridCell :=
  if h : cn < 10 ∧ rn < 22 then g ⟨cn, h.1⟩ ⟨rn, h.2⟩ else defaultGridCell

/-- The first inner loop of Tetris::complete_rows: make all cells on the
completed row void.  The source iterates the columns upward; the writes
are independent, so they are modelled by a countdown over the columns. -/
def zeroRowAux (g : Grid) (rn : Nat) : Nat → Grid
  | 0 => g
  | cn + 1 => zeroRowAux (updateCellN g cn rn ⟨GridCellType.Void, -1⟩) rn cn

/-- Void out one whole row. -/
def zeroRow (g : Grid) (rn : Nat) : Grid := zeroRowAux g rn 10

/-- One column of the shift loop of Tetris::complete_rows: for temp_row
from rn-1 down to 0, copy cell (cn, temp_row) into (cn, temp_row + 1).
Iterating downward means every source cell is read before the loop writes
it, exactly as in the source. -/
def shiftColAux (g : Grid) (cn : Nat) : Nat → Grid
  | 0 => g
  | tr + 1 => shiftColAux (updateCellN g cn (tr + 1) (readCellN g cn tr)) cn tr

/-- The shift loop of Tetris::complete_rows over all columns (the columns
are independent, modelled by a countdown). -/
def shiftDownAux (g : Grid) (rn : Nat) : Nat → Grid
  | 0 => g
  | cn + 1 => shiftDownAux (shiftColAux g cn rn) rn cn

/-- Bring all rows above rn down one row. -/
def shiftDown (g : Grid) (rn : Nat) : Grid := shiftDownAux g rn 10

/-- A row is complete when no cell on it is Void (the negation of the
found_void scan in Tetris::complete_rows). -/
def rowFull (g : Grid) (r : Fin 22) : Bool :=
  decide (∀ c : Fin 10, (g c r).cell_type ≠ GridCellType.Void)

/-- The body executed by Tetris::complete_rows for a completed row:
bump both row counters, void the row, and shift everything above down. -/
def clearRowStep (s : Tetris) (r : Fin 22) : Tetris :=
  { s with rows_completed_level := s.rows_completed_level + 1
           rows_completed := s.rows_completed + 1
           grid := shiftDown (zeroRow s.grid (r : Nat)) (r : Nat) }

/-- The while loop of Tetris::complete_rows.  rowP1 is the scanned row
index plus one, so 0 encodes the loop exit row = -1.  A completed row is
cleared and the same row index is examined again; otherwise the scan moves
up one row.  The source loop has no structural bound (a board whose top
row is entirely non-Void recreates a full row forever), hence the fuel;
none reports that the fuel ran out. -/
def completeRowsAux : Tetris → Nat → Nat → Nat → Option (Tetris × Nat)
  | s, acc, _, 0 => some (s, acc)
  | _, _, 0, _ + 1 => none
  | s, acc, fuel + 1, r + 1 =>
    if hr : r < 22 then
      if rowFull s.grid ⟨r, hr⟩ then
        completeRowsAux (clearRowStep s ⟨r, hr⟩) (acc + 1) fuel (r + 1)
      else completeRowsAux s acc fuel r
    else none

/-- Tetris::complete_rows: scan from the bottom row upward. -/
def Tetris.complete_rows (s : Tetris) (fuel : Nat) : Option (Tetris × Nat) :=
  completeRowsAux s 0 fuel 22

/-- The score table inside Tetris::tick: rows completed on one lock-down
are worth {1 -> 40, 2 -> 100, 3 -> 300, 4 -> 1200, otherwise 0} points
before the level multiplier. -/
def score_factor (rows : Nat) : Nat :=
  match rows with
  | 1 => 40
  | 2 => 100
  | 3 => 300
  | 4 => 1200
  | _ => 0

/-- Tetris::tick.  The piece tries to fall one row; when it cannot, it is
fixed to the board, completed rows are collapsed, the score and level are
updated and the next piece spawns (ending the game when blocked). -/
def Tetris.tick (s : Tetris) (fuel : Nat) : Option Tetris :=
  if s.game_over then some s
  else
    let m := s.set_row (s.row + 1)
    if m.2 then some m.1
    else
      let s2 := m.1.shape_to_grid
      match s2.complete_rows fuel with
      | none => none
      | some (s3, rows) =>
        let s4 := { s3 with score := s3.score + score_factor rows * (s3.level + 1) }
        let s5 := if ROWS_PER_LEVEL < s4.rows_completed_level then
                    { s4 with rows_completed_level := 0, level := s4.level + 1 }
                  else s4
        let n := s5.new_shape
        some (if n.2 then n.1 else n.1.end_game)

/-! Concrete states used by the witnesses and counterexamples below. -/

/-- A constant random stream. -/
def rngConst (k : Nat) : Nat → Nat := fun _ => k

/-- A board holding exactly a square piece at anchor (5, 0) together with
its ghost preview at the bottom: the state the engine reaches right after
start_game draws the square shape. -/
def gridSquare : Grid := fun c r =>
  if ((c : Nat) = 4 ∨ (c : Nat) = 5) ∧ (r : Nat) = 0 then ⟨GridCellType.Shape, 1⟩
  else if ((c : Nat) = 4 ∨ (c : Nat) = 5) ∧ ((r : Nat) = 20 ∨ (r : Nat) = 21) then
    ⟨GridCellType.Ghost, -1⟩
  else defaultGridCell

/-- A running state whose active piece is the square shape. -/
def stSquare : Tetris :=
  { Tetris.new (rngConst 1) with
      grid := gridSquare
      game_over := false
      shape := SHAPES 1
      shape_index := SQUARE_SHAPE_INDEX
      col := 5
      row := 0
      ghost_row := 21 }

/-- The square-piece state moved to the bottom row, where the next tick
locks it. -/
def stBottom : Tetris := { stSquare with row := 21, ghost_row := 21 }

/-- The square-piece state moved against the left wall. -/
def stLeft : Tetris := { stSquare with col := 0 }

/-- A board whose bottom row is completely Fixed. -/
def gridFullBottom : Grid := fun _ r =>
  if (r : Nat) = 21 then ⟨GridCellType.Fixed, 0⟩ else defaultGridCell

/-- A game-over state over the full-bottom-row board. -/
def stFullBottom : Tetris := { Tetris.new (rngConst 0) with grid := gridFullBottom }

/-! Pointwise characterizations of the grid-writing helpers. -/

lemma setCellI_apply (g : Grid) (x y : Int) (f : GridCell → GridCell) (c : Fin 10) (r : Fin 22) :
    setCellI g x y f c r = if (c : Int) = x ∧ (r : Int) = y then f (g c r) else g c r := rfl

lemma foldSetCells_apply (shape : ShapeArr) (col row : Int) (f : GridCell → GridCell)
    (hf : ∀ x, f (f x) = f x) (l : List (Fin 4)) (g : Grid) (c : Fin 10) (r : Fin 22) :
    (l.foldl (fun acc i =>
      if pointInBounds col row (shape i) then
        setCellI acc (transformPoint col row (shape i)).x
          (transformPoint col row (shape i)).y f
      else acc) g) c r =
    if ∃ i ∈ l, (transformPoint col row (shape i)).x = (c : Int) ∧
        (transformPoint col row (shape i)).y = (r : Int)
    then f (g c r) else g c r := by
  induction l generalizing g with
  | nil => simp
  | cons j l ih =>
    simp only [List.foldl_cons]
    rw [ih]
    have hval : (if pointInBounds col row (shape j) = true then
        setCellI g (transformPoint col row (shape j)).x (transformPoint col row (shape j)).y f
        else g) c r =
        if (transformPoint col row (shape j)).x = (c : Int) ∧
           (transformPoint col row (shape j)).y = (r : Int) then f (g c r) else g c r := by
      by_cases hj : (transformPoint col row (shape j)).x = (c : Int) ∧
          (transformPoint col row (shape j)).y = (r : Int)
      · have hpb : pointInBounds col row (shape j) = true := by
          unfold pointInBounds
          rw [decide_eq_true_iff, hj.1, hj.2]
          have hc := c.isLt
          have hr := r.isLt
          simp only [COL_COUNT, ROW_COUNT]
          refine ⟨by omega, by omega, by omega, by omega⟩
        rw [if_pos hpb, setCellI_apply, if_pos (⟨hj.1.symm, hj.2.symm⟩ : _ ∧ _), if_pos hj]
      · rw [if_neg hj]
        split
        · rw [setCellI_apply,
            if_neg (fun hcon => hj ⟨hcon.1.symm, hcon.2.symm⟩)]
        · rfl
    simp only [hval]
    simp only [List.exists_mem_cons_iff]
    by_cases hj : (transformPoint col row (shape j)).x = (c : Int) ∧
        (transformPoint col row (shape j)).y = (r : Int) <;>
      by_cases hex : ∃ i ∈ l, (transformPoint col row (shape i)).x = (c : Int) ∧
          (transformPoint col row (shape i)).y = (r : Int) <;>
      simp [hj, hex, hf]

lemma forEachCell_apply (g : Grid) (shape : ShapeArr) (col row : Int)
    (f : GridCell → GridCell) (hf : ∀ x, f (f x) = f x) (c : Fin 10) (r : Fin 22) :
    forEachCell g shape col row f c r =
      if hitBy shape col row c r then f (g c r) else g c r := by
  unfold forEachCell
  rw [foldSetCells_apply shape col row f hf]
  unfold hitBy
  simp
lemma validLocation_true_iff (g : Grid) (shape : ShapeArr) (col row : Int) (check_sides : Bool) :
    validLocation g shape col row check_sides = true ↔
      ∀ i : Fin 4,
        ¬((check_sides = true ∧
            ((transformPoint col row (shape i)).x < 0 ∨
              COL_COUNT ≤ (transformPoint col row (shape i)).x)) ∨
          ROW_COUNT ≤ (transformPoint col row (shape i)).y ∨
          (pointInBounds col row (shape i) = true ∧
            (getCell g (transformPoint col row (shape i)).x
              (transformPoint col row (shape i)).y).cell_type = GridCellType.Fixed)) := by
  unfold validLocation
  exact decide_eq_true_iff

lemma validLocation_mono_sides (g : Grid) (shape : ShapeArr) (col row : Int)
    (h : validLocation g shape col row true = true) :
    validLocation g shape col row false = true := by
  rw [validLocation_true_iff] at h ⊢
  intro i
  have hi := h i
  intro hcon
  apply hi
  rcases hcon with h1 | h2 | h3
  · exact absurd h1.1 (by simp)
  · exact Or.inr (Or.inl h2)
  · exact Or.inr (Or.inr h3)

lemma getCell_fixed_congr {g1 g2 : Grid}
    (h : ∀ c r, (g1 c r).cell_type = GridCellType.Fixed ↔ (g2 c r).cell_type = GridCellType.Fixed)
    (x y : Int) :
    ((getCell g1 x y).cell_type = GridCellType.Fixed ↔
      (getCell g2 x y).cell_type = GridCellType.Fixed) := by
  unfold getCell
  split
  · split
    · exact h _ _
    · exact Iff.rfl
  · exact Iff.rfl

lemma validLocation_fixed_congr {g1 g2 : Grid}
    (h : ∀ c r, (g1 c r).cell_type = GridCellType.Fixed ↔ (g2 c r).cell_type = GridCellType.Fixed)
    (shape : ShapeArr) (col row : Int) (check_sides : Bool) :
    validLocation g1 shape col row check_sides = validLocation g2 shape col row check_sides := by
  unfold validLocation
  rw [decide_eq_decide]
  exact forall_congr' fun i => not_congr
    (or_congr Iff.rfl (or_congr Iff.rfl (and_congr Iff.rfl (getCell_fixed_congr h _ _))))

lemma ghostRowAux_fixed_congr {g1 g2 : Grid}
    (h : ∀ c r, (g1 c r).cell_type = GridCellType.Fixed ↔ (g2 c r).cell_type = GridCellType.Fixed)
    (shape : ShapeArr) (col : Int) :
    ∀ (fuel : Nat) (gr : Int), ghostRowAux g1 shape col gr fuel = ghostRowAux g2 shape col gr fuel := by
  intro fuel
  induction fuel with
  | zero => intro gr; rfl
  | succ n ih =>
    intro gr
    show (if validLocation g1 shape col (gr + 1) true then ghostRowAux g1 shape col (gr + 1) n
          else gr) =
         (if validLocation g2 shape col (gr + 1) true then ghostRowAux g2 shape col (gr + 1) n
          else gr)
    rw [validLocation_fixed_congr h]
    split
    · exact ih _
    · rfl

lemma updateCellN_apply (g : Grid) (cn rn : Nat) (v : GridCell) (c : Fin 10) (r : Fin 22) :
    updateCellN g cn rn v c r = if (c : Nat) = cn ∧ (r : Nat) = rn then v else g c r := rfl

lemma readCellN_lt (g : Grid) (c : Fin 10) (k : Nat) (hk : k < 22) :
    readCellN g (c : Nat) k = g c ⟨k, hk⟩ := by
  unfold readCellN
  rw [dif_pos ⟨c.isLt, hk⟩]

lemma readCellN_update (g : Grid) (cn rn : Nat) (v : GridCell) (cn2 k : Nat) :
    readCellN (updateCellN g cn rn v) cn2 k =
      if cn2 = cn ∧ k = rn ∧ cn2 < 10 ∧ k < 22 then v else readCellN g cn2 k := by
  unfold readCellN updateCellN
  by_cases hb : cn2 < 10 ∧ k < 22
  · rw [dif_pos hb, dif_pos hb]
    by_cases h : cn2 = cn ∧ k = rn
    · rw [if_pos ⟨h.1, h.2⟩, if_pos ⟨h.1, h.2, hb.1, hb.2⟩]
    · rw [if_neg (by simpa using h), if_neg (by tauto)]
  · rw [dif_neg hb, dif_neg hb, if_neg (by tauto)]

lemma zeroRowAux_apply (rn : Nat) : ∀ (n : Nat) (g : Grid) (c : Fin 10) (r : Fin 22),
    zeroRowAux g rn n c r =
      if (c : Nat) < n ∧ (r : Nat) = rn then ⟨GridCellType.Void, -1⟩ else g c r := by
  intro n
  induction n with
  | zero => intro g c r; simp [zeroRowAux]
  | succ m ih =>
    intro g c r
    show zeroRowAux (updateCellN g m rn ⟨GridCellType.Void, -1⟩) rn m c r = _
    rw [ih, updateCellN_apply]
    by_cases h1 : (c : Nat) < m ∧ (r : Nat) = rn
    · rw [if_pos h1, if_pos ⟨Nat.lt_succ_of_lt h1.1, h1.2⟩]
    · rw [if_neg h1]
      by_cases h2 : (c : Nat) = m ∧ (r : Nat) = rn
      · rw [if_pos h2, if_pos ⟨by omega, h2.2⟩]
      · rw [if_neg h2, if_neg (by omega)]

lemma zeroRow_apply (g : Grid) (rn : Nat) (c : Fin 10) (r : Fin 22) :
    zeroRow g rn c r =
      if (r : Nat) = rn then ⟨GridCellType.Void, -1⟩ else g c r := by
  unfold zeroRow
  rw [zeroRowAux_apply]
  have hc := c.isLt
  by_cases h : (r : Nat) = rn
  · rw [if_pos ⟨by omega, h⟩, if_pos h]
  · rw [if_neg (by omega), if_neg h]

lemma shiftColAux_apply (cn : Nat) : ∀ (n : Nat) (g : Grid) (c : Fin 10) (r : Fin 22),
    shiftColAux g cn n c r =
      if (c : Nat) = cn ∧ 1 ≤ (r : Nat) ∧ (r : Nat) ≤ n then readCellN g cn ((r : Nat) - 1)
      else g c r := by
  intro n
  induction n with
  | zero =>
    intro g c r
    show g c r = _
    rw [if_neg (by omega)]
  | succ m ih =>
    intro g c r
    show shiftColAux (updateCellN g cn (m + 1) (readCellN g cn m)) cn m c r = _
    rw [ih]
    by_cases h1 : (c : Nat) = cn ∧ 1 ≤ (r : Nat) ∧ (r : Nat) ≤ m
    · rw [if_pos h1, readCellN_update, if_neg (by omega),
        if_pos ⟨h1.1, h1.2.1, by omega⟩]
    · rw [if_neg h1, updateCellN_apply]
      by_cases h2 : (c : Nat) = cn ∧ (r : Nat) = m + 1
      · have hr2 : (r : Nat) = m + 1 := h2.2
        rw [if_pos h2, if_pos ⟨h2.1, by omega, by omega⟩, hr2]
        simp
      · rw [if_neg h2, if_neg (by omega)]

lemma shiftDownAux_apply (rn : Nat) : ∀ (m : Nat) (g : Grid) (c : Fin 10) (r : Fin 22),
    shiftDownAux g rn m c r =
      if (c : Nat) < m ∧ 1 ≤ (r : Nat) ∧ (r : Nat) ≤ rn then
        readCellN g (c : Nat) ((r : Nat) - 1)
      else g c r := by
  intro m
  induction m with
  | zero =>
    intro g c r
    show g c r = _
    rw [if_neg (by omega)]
  | succ m ih =>
    intro g c r
    show shiftDownAux (shiftColAux g m rn) rn m c r = _
    rw [ih]
    have hread : ∀ (k : Nat), (c : Nat) ≠ m →
        readCellN (shiftColAux g m rn) (c : Nat) k = readCellN g (c : Nat) k := by
      intro k hne
      unfold readCellN
      by_cases hb : (c : Nat) < 10 ∧ k < 22
      · rw [dif_pos hb, dif_pos hb, shiftColAux_apply, if_neg (by simp; omega)]
      · rw [dif_neg hb, dif_neg hb]
    by_cases h1 : (c : Nat) < m ∧ 1 ≤ (r : Nat) ∧ (r : Nat) ≤ rn
    · rw [if_pos h1, hread _ (by omega), if_pos ⟨by omega, h1.2⟩]
    · rw [if_neg h1, shiftColAux_apply]
      by_cases h2 : (c : Nat) = m ∧ 1 ≤ (r : Nat) ∧ (r : Nat) ≤ rn
      · rw [if_pos h2, if_pos ⟨by omega, h2.2⟩, h2.1]
      · rw [if_neg h2, if_neg (by omega)]

lemma shiftDown_apply (g : Grid) (rn : Nat) (c : Fin 10) (r : Fin 22) :
    shiftDown g rn c r =
      if h : 1 ≤ (r : Nat) ∧ (r : Nat) ≤ rn then
        g c ⟨(r : Nat) - 1, by omega⟩
      else g c r := by
  unfold shiftDown
  rw [shiftDownAux_apply]
  have hc := c.isLt
  by_cases h : 1 ≤ (r : Nat) ∧ (r : Nat) ≤ rn
  · rw [if_pos ⟨by omega, h⟩, dif_pos h, readCellN_lt]
  · rw [if_neg (by omega), dif_neg h]

lemma clearRowStep_grid (s : Tetris) (rr : Fin 22) (c : Fin 10) (r : Fin 22) :
    (clearRowStep s rr).grid c r =
      if (rr : Nat) < (r : Nat) then s.grid c r
      else if h1 : 1 ≤ (r : Nat) then s.grid c ⟨(r : Nat) - 1, by omega⟩
      else if (rr : Nat) = 0 then ⟨GridCellType.Void, -1⟩ else s.grid c r := by
  show shiftDown (zeroRow s.grid (rr : Nat)) (rr : Nat) c r = _
  rw [shiftDown_apply]
  by_cases hgt : (rr : Nat) < (r : Nat)
  · rw [dif_neg (by omega), if_pos hgt, zeroRow_apply, if_neg (by omega)]
  · rw [if_neg hgt]
    by_cases h1 : 1 ≤ (r : Nat)
    · rw [dif_pos ⟨h1, by omega⟩, dif_pos h1, zeroRow_apply,
        if_neg (by simp only [Fin.val_mk]; omega)]
    · rw [dif_neg (by omega), dif_neg h1, zeroRow_apply]
      by_cases h0 : (rr : Nat) = 0
      · rw [if_pos (by omega), if_pos h0]
      · rw [if_neg (by omega), if_neg h0]

lemma clearRowStep_fields (s : Tetris) (rr : Fin 22) :
    (clearRowStep s rr).rows_completed = s.rows_completed + 1 ∧
    (clearRowStep s rr).rows_completed_level = s.rows_completed_level + 1 ∧
    (clearRowStep s rr).score = s.score ∧ (clearRowStep s rr).level = s.level ∧
    (clearRowStep s rr).game_over = s.game_over ∧ (clearRowStep s rr).col = s.col ∧
    (clearRowStep s rr).row = s.row ∧ (clearRowStep s rr).ghost_row = s.ghost_row ∧
    (clearRowStep s rr).shape = s.shape ∧ (clearRowStep s rr).shape_index = s.shape_index ∧
    (clearRowStep s rr).next_shape = s.next_shape ∧
    (clearRowStep s rr).next_shape_index = s.next_shape_index ∧
    (clearRowStep s rr).rng = s.rng ∧ (clearRowStep s rr).rngIdx = s.rngIdx :=
  ⟨rfl, rfl, rfl, rfl, rfl, rfl, rfl, rfl, rfl, rfl, rfl, rfl, rfl, rfl⟩

lemma completeRowsAux_fields :
    ∀ (fuel rP1 : Nat) (s : Tetris) (acc : Nat) (t : Tetris) (n : Nat),
      completeRowsAux s acc fuel rP1 = some (t, n) →
      t.rows_completed + acc = s.rows_completed + n ∧
      t.rows_completed_level + acc = s.rows_completed_level + n ∧
      t.score = s.score ∧ t.level = s.level ∧ t.game_over = s.game_over ∧
      t.col = s.col ∧ t.row = s.row ∧ t.ghost_row = s.ghost_row ∧
      t.shape = s.shape ∧ t.shape_index = s.shape_index ∧
      t.next_shape = s.next_shape ∧ t.next_shape_index = s.next_shape_index ∧
      t.rng = s.rng ∧ t.rngIdx = s.rngIdx := by
  intro fuel
  induction fuel with
  | zero =>
    intro rP1 s acc t n h
    cases rP1 with
    | zero =>
      simp only [completeRowsAux, Option.some.injEq, Prod.mk.injEq] at h
      obtain ⟨h1, h2⟩ := h
      subst h1; subst h2
      refine ⟨rfl, rfl, rfl, rfl, rfl, rfl, rfl, rfl, rfl, rfl, rfl, rfl, rfl, rfl⟩
    | succ r => simp [completeRowsAux] at h
  | succ m ih =>
    intro rP1 s acc t n h
    cases rP1 with
    | zero =>
      simp only [completeRowsAux, Option.some.injEq, Prod.mk.injEq] at h
      obtain ⟨h1, h2⟩ := h
      subst h1; subst h2
      refine ⟨rfl, rfl, rfl, rfl, rfl, rfl, rfl, rfl, rfl, rfl, rfl, rfl, rfl, rfl⟩
    | succ r =>
      simp only [completeRowsAux] at h
      split at h
      · split at h
        · have hrec := ih (r + 1) _ (acc + 1) t n h
          have hcf := clearRowStep_fields s ⟨r, by omega⟩
          obtain ⟨a1, a2, a3, a4, a5, a6, a7, a8, a9, a10, a11, a12, a13, a14⟩ := hrec
          obtain ⟨b1, b2, b3, b4, b5, b6, b7, b8, b9, b10, b11, b12, b13, b14⟩ := hcf
          refine ⟨by omega, by omega, ?_, ?_, ?_, ?_, ?_, ?_, ?_, ?_, ?_, ?_, ?_, ?_⟩ <;>
            simp_all
        · exact ih r s acc t n h
      · simp at h

lemma completeRowsAux_frame :
    ∀ (fuel rP1 : Nat) (s : Tetris) (acc : Nat) (t : Tetris) (n : Nat),
      completeRowsAux s acc fuel rP1 = some (t, n) →
      ∀ (c : Fin 10) (r : Fin 22), rP1 ≤ (r : Nat) → t.grid c r = s.grid c r := by
  intro fuel
  induction fuel with
  | zero =>
    intro rP1 s acc t n h c r hle
    cases rP1 with
    | zero =>
      simp only [completeRowsAux, Option.some.injEq, Prod.mk.injEq] at h
      rw [← h.1]
    | succ r2 => simp [completeRowsAux] at h
  | succ m ih =>
    intro rP1 s acc t n h c r hle
    cases rP1 with
    | zero =>
      simp only [completeRowsAux, Option.some.injEq, Prod.mk.injEq] at h
      rw [← h.1]
    | succ r2 =>
      simp only [completeRowsAux] at h
      split at h
      · split at h
        · have hrec := ih (r2 + 1) _ (acc + 1) t n h c r hle
          rw [hrec, clearRowStep_grid]
          rw [if_pos (by show r2 < (r : Nat); omega)]
        · exact ih r2 s acc t n h c r (by omega)
      · simp at h

lemma completeRowsAux_nofull :
    ∀ (rP1 : Nat), rP1 ≤ 22 → ∀ (fuel : Nat), rP1 ≤ fuel → ∀ (s : Tetris) (acc : Nat),
      (∀ r : Fin 22, rowFull s.grid r = false) →
      completeRowsAux s acc fuel rP1 = some (s, acc) := by
  intro rP1
  induction rP1 with
  | zero =>
    intro _ fuel _ s acc _
    cases fuel <;> rfl
  | succ r ih =>
    intro hle fuel hfuel s acc hnf
    cases fuel with
    | zero => omega
    | succ m =>
      show (if hr : r < 22 then
              if rowFull s.grid ⟨r, hr⟩ then completeRowsAux (clearRowStep s ⟨r, hr⟩) (acc + 1) m (r + 1)
              else completeRowsAux s acc m r
            else none) = some (s, acc)
      rw [dif_pos (by omega : r < 22), hnf _]
      show completeRowsAux s acc m r = some (s, acc)
      exact ih (by omega) m (by omega) s acc hnf


lemma set_col_fail (s : Tetris) (col : Int) (h : (s.set_col col).2 = false) :
    (s.set_col col).1 = s := by
  unfold Tetris.set_col at h ⊢
  simp only [] at h ⊢
  split at h
  next hgo => rw [if_pos hgo]
  next hgo =>
    rw [if_neg hgo]
    split at h
    next hres => simp at h
    next hres => rw [if_neg hres]

lemma set_row_fail (s : Tetris) (row : Int) (h : (s.set_row row).2 = false) :
    (s.set_row row).1 = s := by
  unfold Tetris.set_row at h ⊢
  simp only [] at h ⊢
  split at h
  next hgo => rw [if_pos hgo]
  next hgo =>
    rw [if_neg hgo]
    split at h
    next hres => simp at h
    next hres => rw [if_neg hres]

lemma end_game_fields (s : Tetris) :
    s.end_game.score = s.score ∧ s.end_game.level = s.level ∧
    s.end_game.rows_completed_level = s.rows_completed_level := ⟨rfl, rfl, rfl⟩

lemma new_shape_fields (s : Tetris) :
    (s.new_shape).1.score = s.score ∧ (s.new_shape).1.level = s.level ∧
    (s.new_shape).1.rows_completed_level = s.rows_completed_level ∧
    (s.new_shape).1.rows_completed = s.rows_completed ∧
    (s.new_shape).1.game_over = s.game_over := by
  unfold Tetris.new_shape Tetris.move_shape
  simp only []
  split <;> exact ⟨rfl, rfl, rfl, rfl, rfl⟩

lemma tick_lock (s : Tetris) (fuel : Nat) (hgo : s.game_over = false)
    (hlock : (s.set_row (s.row + 1)).2 = false) (t : Tetris) (n : Nat)
    (hcr : Tetris.complete_rows s.shape_to_grid fuel = some (t, n)) :
    ∃ s2, s.tick fuel = some s2 ∧
      s2.score = t.score + score_factor n * (t.level + 1) ∧
      (ROWS_PER_LEVEL < t.rows_completed_level →
        s2.level = t.level + 1 ∧ s2.rows_completed_level = 0) ∧
      (¬ ROWS_PER_LEVEL < t.rows_completed_level →
        s2.level = t.level ∧ s2.rows_completed_level = t.rows_completed_level) := by
  have hm1 : (s.set_row (s.row + 1)).1 = s := set_row_fail s _ hlock
  simp only [Tetris.tick, hgo, hlock, hm1, hcr, Bool.false_eq_true, if_false]
  refine ⟨_, rfl, ?_, ?_, ?_⟩
  · split <;>
      (split
       next => rw [(new_shape_fields _).1]
       next => rw [(end_game_fields _).1, (new_shape_fields _).1])
  · intro hlev
    refine ⟨?_, ?_⟩ <;> split
    · split
      next => rw [(new_shape_fields _).2.1]
      next => rw [(end_game_fields _).2.1, (new_shape_fields _).2.1]
    · next hcon => exact absurd hlev hcon
    · split
      next => rw [(new_shape_fields _).2.2.1]
      next => rw [(end_game_fields _).2.2, (new_shape_fields _).2.2.1]
    · next hcon => exact absurd hlev hcon
  · intro hlev
    refine ⟨?_, ?_⟩ <;> split
    · next hcon => exact absurd hcon hlev
    · split
      next => rw [(new_shape_fields _).2.1]
      next => rw [(end_game_fields _).2.1, (new_shape_fields _).2.1]
    · next hcon => exact absurd hcon hlev
    · split
      next => rw [(new_shape_fields _).2.2.1]
      next => rw [(end_game_fields _).2.2, (new_shape_fields _).2.2.1]

/-- C10: applying the clockwise rotation transform and then the
counter-clockwise one (or vice versa) returns the original 4-point shape
point-for-point. -/
theorem C10_rotate_round_trip (shape : ShapeArr) :
    rotate_shape false (rotate_shape true shape) = shape ∧
    rotate_shape true (rotate_shape false shape) = shape := by
  constructor <;> (funext i; unfold rotate_shape; simp)

/-- C8: get_grid_cell succeeds exactly on coordinates inside the board,
and there returns the cell; outside the board the assertion fires. -/
theorem C8_get_grid_cell_bounds (s : Tetris) (col row : Int) :
    ((0 ≤ col ∧ col < COL_COUNT ∧ 0 ≤ row ∧ row < ROW_COUNT) ↔
      (s.get_grid_cell col row).isSome) ∧
    ((0 ≤ col ∧ col < COL_COUNT ∧ 0 ≤ row ∧ row < ROW_COUNT) →
      s.get_grid_cell col row = some (getCell s.grid col row)) := by
  unfold Tetris.get_grid_cell
  simp only [COL_COUNT, ROW_COUNT]
  constructor
  · constructor
    · intro h
      rw [if_pos ⟨h.1, by omega⟩, if_pos ⟨h.2.2.1, by omega⟩]
      rfl
    · intro h
      by_cases h1 : 0 ≤ col ∧ col ≤ 10 - 1
      · by_cases h2 : 0 ≤ row ∧ row ≤ 22 - 1
        · exact ⟨h1.1, by omega, h2.1, by omega⟩
        · rw [if_pos h1, if_neg h2] at h
          simp at h
      · rw [if_neg h1] at h
        simp at h
  · intro h
    rw [if_pos ⟨h.1, by omega⟩, if_pos ⟨h.2.2.1, by omega⟩]

/-- C8 witness at a concrete in-bounds coordinate. -/
theorem C8_witness :
    ((0 ≤ (3 : Int) ∧ (3 : Int) < COL_COUNT ∧ 0 ≤ (4 : Int) ∧ (4 : Int) < ROW_COUNT) ∧
      (Tetris.new (rngConst 0)).get_grid_cell 3 4 =
        some (getCell (Tetris.new (rngConst 0)).grid 3 4)) :=
  ⟨by decide, (C8_get_grid_cell_bounds (Tetris.new (rngConst 0)) 3 4).2 (by decide)⟩

/-- C5: with the game-over flag set, set_col, set_row and rotate return
false and tick does nothing; the whole state is left untouched. -/
theorem C5_game_over_noop (s : Tetris) (hgo : s.game_over = true)
    (c r : Int) (cw : Bool) (fuel : Nat) :
    s.set_col c = (s, false) ∧ s.set_row r = (s, false) ∧
    s.rotate cw = (s, false) ∧ s.tick fuel = some s := by
  refine ⟨?_, ?_, ?_, ?_⟩ <;>
    simp [Tetris.set_col, Tetris.set_row, Tetris.rotate, Tetris.tick, hgo]

/-- C5 witness: the freshly constructed game (game_over is true). -/
theorem C5_witness :
    (Tetris.new (rngConst 0)).game_over = true ∧
    (Tetris.new (rngConst 0)).set_col 3 = (Tetris.new (rngConst 0), false) ∧
    (Tetris.new (rngConst 0)).set_row 3 = (Tetris.new (rngConst 0), false) ∧
    (Tetris.new (rngConst 0)).rotate true = (Tetris.new (rngConst 0), false) ∧
    (Tetris.new (rngConst 0)).tick 64 = some (Tetris.new (rngConst 0)) := by
  refine ⟨rfl, ?_⟩
  exact C5_game_over_noop (Tetris.new (rngConst 0)) rfl 3 3 true 64

/-- C6: a rejected set_col or set_row leaves the state exactly as before;
in particular a move left at column 0 is rejected and changes nothing. -/
theorem C6_failed_move_no_change (s : Tetris) (c r : Int) (hgo : s.game_over = false) :
    ((s.set_col c).2 = false → (s.set_col c).1 = s) ∧
    ((s.set_row r).2 = false → (s.set_row r).1 = s) ∧
    (s.col = 0 → (s.set_col (s.col - 1)).2 = false ∧ (s.set_col (s.col - 1)).1 = s) := by
  refine ⟨set_col_fail s c, set_row_fail s r, ?_⟩
  intro h0
  rw [h0]
  have hsnd : (s.set_col (0 - 1)).2 = false := by
    unfold Tetris.set_col
    simp only []
    rw [if_neg (by rw [hgo]; simp), if_neg (by norm_num)]
  exact ⟨hsnd, set_col_fail s _ hsnd⟩

/-- C6 witness: the square piece moved against the left wall. -/
theorem C6_witness :
    stLeft.game_over = false ∧ stLeft.col = 0 ∧
    (stLeft.set_col (stLeft.col - 1)).2 = false ∧
    (stLeft.set_col (stLeft.col - 1)).1 = stLeft :=
  ⟨rfl, rfl, (C6_failed_move_no_change stLeft 0 0 rfl).2.2 rfl⟩

/-- C2: complete_rows increments both row counters once per completed row
and returns the number completed; a completed row is zeroed and every row
above it moves down one while rows strictly below it are untouched; after
a clear the scan re-examines the same row index, otherwise it moves one
row up; and rows below the scan front are never modified again. -/
theorem C2_complete_rows_spec (s : Tetris) (fuel : Nat) (t : Tetris) (n : Nat)
    (h : s.complete_rows fuel = some (t, n)) :
    (t.rows_completed = s.rows_completed + n ∧
     t.rows_completed_level = s.rows_completed_level + n) ∧
    (∀ (u : Tetris) (rr : Fin 22), rowFull u.grid rr = true →
      ∀ (c : Fin 10) (r : Fin 22),
        ((rr : Nat) < (r : Nat) → (clearRowStep u rr).grid c r = u.grid c r) ∧
        (1 ≤ (r : Nat) → (r : Nat) ≤ (rr : Nat) →
          (clearRowStep u rr).grid c r = u.grid c ⟨(r : Nat) - 1, by omega⟩) ∧
        ((r : Nat) = 0 → (rr : Nat) = 0 →
          (clearRowStep u rr).grid c r = ⟨GridCellType.Void, -1⟩)) ∧
    (∀ (u : Tetris) (acc f2 rr : Nat) (hr : rr < 22),
      (rowFull u.grid ⟨rr, hr⟩ = true →
        completeRowsAux u acc (f2 + 1) (rr + 1) =
          completeRowsAux (clearRowStep u ⟨rr, hr⟩) (acc + 1) f2 (rr + 1)) ∧
      (rowFull u.grid ⟨rr, hr⟩ = false →
        completeRowsAux u acc (f2 + 1) (rr + 1) = completeRowsAux u acc f2 rr)) ∧
    (∀ (u : Tetris) (acc f2 rP1 : Nat) (t2 : Tetris) (n2 : Nat),
      completeRowsAux u acc f2 rP1 = some (t2, n2) →
      ∀ (c : Fin 10) (r : Fin 22), rP1 ≤ (r : Nat) → t2.grid c r = u.grid c r) := by
  refine ⟨?_, ?_, ?_, fun u acc f2 rP1 t2 n2 h2 =>
    completeRowsAux_frame f2 rP1 u acc t2 n2 h2⟩
  · have hf := completeRowsAux_fields fuel 22 s 0 t n h
    exact ⟨by omega, by omega⟩
  · intro u rr hfull c r
    refine ⟨?_, ?_, ?_⟩
    · intro hlt
      rw [clearRowStep_grid, if_pos hlt]
    · intro h1 hle
      rw [clearRowStep_grid, if_neg (by omega), dif_pos h1]
    · intro hr0 hrr0
      rw [clearRowStep_grid, if_neg (by omega), dif_neg (by omega), if_pos hrr0]
  · intro u acc f2 rr hr
    constructor
    · intro hfull
      show (if hx : rr < 22 then
              if rowFull u.grid ⟨rr, hx⟩ then
                completeRowsAux (clearRowStep u ⟨rr, hx⟩) (acc + 1) f2 (rr + 1)
              else completeRowsAux u acc f2 rr
            else none) = _
      rw [dif_pos hr, if_pos hfull]
    · intro hnf
      show (if hx : rr < 22 then
              if rowFull u.grid ⟨rr, hx⟩ then
                completeRowsAux (clearRowStep u ⟨rr, hx⟩) (acc + 1) f2 (rr + 1)
              else completeRowsAux u acc f2 rr
            else none) = _
      rw [dif_pos hr, if_neg (by rw [hnf]; simp)]

/-- C2 witness: a board with no completed rows returns 0 and repeats the
state unchanged. -/
theorem C2_witness :
    stSquare.complete_rows 64 = some (stSquare, 0) ∧
    stSquare.rows_completed = stSquare.rows_completed + 0 :=
  ⟨rfl, (C2_complete_rows_spec stSquare 64 stSquare 0 rfl).1.1⟩

/-- C9: clearing a completed row r with r greater than 0 never writes the top
row, which keeps its pre-call contents, and those contents are duplicated
into row 1 by the shift. -/
theorem C9_top_row_duplicated (s : Tetris) (rr : Fin 22)
    (_hfull : rowFull s.grid rr = true) (h1 : 1 ≤ (rr : Nat)) (c : Fin 10) :
    (clearRowStep s rr).grid c 0 = s.grid c 0 ∧
    (clearRowStep s rr).grid c 1 = s.grid c 0 := by
  constructor
  · rw [clearRowStep_grid, if_neg (by simp), dif_neg (by simp), if_neg (by omega)]
  · rw [clearRowStep_grid, if_neg (by simp; omega), dif_pos (by simp)]
    rfl

/-- C9 witness: the completed bottom row of stFullBottom. -/
theorem C9_witness :
    rowFull stFullBottom.grid ⟨21, by omega⟩ = true ∧
    (clearRowStep stFullBottom ⟨21, by omega⟩).grid ⟨0, by omega⟩ 0 =
      stFullBottom.grid ⟨0, by omega⟩ 0 ∧
    (clearRowStep stFullBottom ⟨21, by omega⟩).grid ⟨0, by omega⟩ 1 =
      stFullBottom.grid ⟨0, by omega⟩ 0 :=
  ⟨by decide, C9_top_row_duplicated stFullBottom ⟨21, by omega⟩ (by decide) (by decide) _⟩

/-- C3: a tick that locks the piece adds exactly
score_factor(rows) * (level + 1) to the score, where rows is the number of
completed rows reported by complete_rows, score_factor is the literal
table 1 to 40, 2 to 100, 3 to 300, 4 to 1200 and 0 otherwise, and level
is the level at the start of the tick; clearing 0 rows adds 0. -/
theorem C3_score_on_lock (s : Tetris) (fuel : Nat) (t : Tetris) (n : Nat)
    (hgo : s.game_over = false)
    (hlock : (s.set_row (s.row + 1)).2 = false)
    (hcr : Tetris.complete_rows s.shape_to_grid fuel = some (t, n)) :
    ∃ s2, s.tick fuel = some s2 ∧
      s2.score = s.score + score_factor n * (s.level + 1) ∧
      score_factor 1 = 40 ∧ score_factor 2 = 100 ∧ score_factor 3 = 300 ∧
      score_factor 4 = 1200 ∧ score_factor 0 = 0 ∧ (∀ m, score_factor (m + 5) = 0) ∧
      (n = 0 → s2.score = s.score) := by
  obtain ⟨s2, h1, h2, -, -⟩ := tick_lock s fuel hgo hlock t n hcr
  have hf := completeRowsAux_fields fuel 22 s.shape_to_grid 0 t n hcr
  have hsc : t.score = s.score := hf.2.2.1
  have hlv : t.level = s.level := hf.2.2.2.1
  rw [hsc, hlv] at h2
  refine ⟨s2, h1, h2, rfl, rfl, rfl, rfl, rfl, fun m => rfl, ?_⟩
  intro h0
  subst h0
  rw [h2]
  show s.score + 0 * (s.level + 1) = s.score
  omega

/-- C3 witness: the square piece locked at the bottom row, completing no
rows, so the score is unchanged. -/
theorem C3_witness :
    stBottom.game_over = false ∧
    (stBottom.set_row (stBottom.row + 1)).2 = false ∧
    Tetris.complete_rows stBottom.shape_to_grid 64 = some (stBottom.shape_to_grid, 0) ∧
    (∃ s2, stBottom.tick 64 = some s2 ∧
      s2.score = stBottom.score + score_factor 0 * (stBottom.level + 1) ∧
      score_factor 1 = 40 ∧ score_factor 2 = 100 ∧ score_factor 3 = 300 ∧
      score_factor 4 = 1200 ∧ score_factor 0 = 0 ∧ (∀ m, score_factor (m + 5) = 0) ∧
      (0 = 0 → s2.score = stBottom.score)) :=
  ⟨rfl, rfl, rfl, C3_score_on_lock stBottom 64 stBottom.shape_to_grid 0 rfl rfl rfl⟩

/-- C7: during a lock tick the level increments and the per-level counter
resets exactly when the per-level counter after the clear strictly exceeds
the literal threshold ROWS_PER_LEVEL = 10; otherwise both stay as they
were. -/
theorem C7_level_up_threshold (s : Tetris) (fuel : Nat) (t : Tetris) (n : Nat)
    (hgo : s.game_over = false)
    (hlock : (s.set_row (s.row + 1)).2 = false)
    (hcr : Tetris.complete_rows s.shape_to_grid fuel = some (t, n)) :
    ∃ s2, s.tick fuel = some s2 ∧
      t.rows_completed_level = s.rows_completed_level + n ∧
      (t.rows_completed_level > ROWS_PER_LEVEL →
        s2.level = s.level + 1 ∧ s2.rows_completed_level = 0) ∧
      (¬ t.rows_completed_level > ROWS_PER_LEVEL →
        s2.level = s.level ∧ s2.rows_completed_level = t.rows_completed_level) ∧
      ROWS_PER_LEVEL = 10 := by
  obtain ⟨s2, h1, -, h3, h4⟩ := tick_lock s fuel hgo hlock t n hcr
  have hf := completeRowsAux_fields fuel 22 s.shape_to_grid 0 t n hcr
  have hlv : t.level = s.level := hf.2.2.2.1
  have hsg : (s.shape_to_grid).rows_completed_level = s.rows_completed_level := rfl
  rw [hlv] at h3 h4
  exact ⟨s2, h1, by omega, h3, h4, rfl⟩

/-- C7 witness: a lock tick completing no rows with the counter at 0 does
not level up. -/
theorem C7_witness :
    stBottom.game_over = false ∧
    (stBottom.set_row (stBottom.row + 1)).2 = false ∧
    Tetris.complete_rows stBottom.shape_to_grid 64 = some (stBottom.shape_to_grid, 0) ∧
    (∃ s2, stBottom.tick 64 = some s2 ∧
      (stBottom.shape_to_grid).rows_completed_level = stBottom.rows_completed_level + 0 ∧
      ((stBottom.shape_to_grid).rows_completed_level > ROWS_PER_LEVEL →
        s2.level = stBottom.level + 1 ∧ s2.rows_completed_level = 0) ∧
      (¬ (stBottom.shape_to_grid).rows_completed_level > ROWS_PER_LEVEL →
        s2.level = stBottom.level ∧
        s2.rows_completed_level = (stBottom.shape_to_grid).rows_completed_level) ∧
      ROWS_PER_LEVEL = 10) :=
  ⟨rfl, rfl, rfl, C7_level_up_threshold stBottom 64 stBottom.shape_to_grid 0 rfl rfl rfl⟩

lemma spawn_valid_empty : ∀ i : Fin 7, validLocation emptyGrid (SHAPES i) 5 0 true = true := by
  decide

lemma shapesAt_mod (k : Nat) :
    shapesAt ((k % 7 : Nat) : Int) = SHAPES ⟨k % 7, Nat.mod_lt _ (by omega)⟩ := by
  unfold shapesAt
  rw [dif_pos ⟨Int.ofNat_nonneg _, by exact_mod_cast Nat.mod_lt _ (by omega)⟩]
  rfl

lemma shape_writer_idem (idx : Int) : ∀ x : GridCell,
    (fun c => { c with cell_type := GridCellType.Shape, shape_index := idx })
      ((fun c => { c with cell_type := GridCellType.Shape, shape_index := idx }) x) =
    (fun c => { c with cell_type := GridCellType.Shape, shape_index := idx }) x := by
  intro x; rfl

lemma void_writer_idem : ∀ x : GridCell,
    (fun c => { c with cell_type := GridCellType.Void, shape_index := -1 })
      ((fun c => { c with cell_type := GridCellType.Void, shape_index := -1 }) x) =
    (fun c => { c with cell_type := GridCellType.Void, shape_index := -1 }) x := by
  intro x; rfl

lemma ghost_writer_idem : ∀ x : GridCell,
    (fun c => if c.cell_type = GridCellType.Void
              then { c with cell_type := GridCellType.Ghost } else c)
      ((fun c => if c.cell_type = GridCellType.Void
                 then { c with cell_type := GridCellType.Ghost } else c) x) =
    (fun c => if c.cell_type = GridCellType.Void
              then { c with cell_type := GridCellType.Ghost } else c) x := by
  intro x
  by_cases h : x.cell_type = GridCellType.Void <;> simp [h]

lemma unghost_writer_idem : ∀ x : GridCell,
    (fun c => if c.cell_type = GridCellType.Ghost
              then { c with cell_type := GridCellType.Void } else c)
      ((fun c => if c.cell_type = GridCellType.Ghost
                 then { c with cell_type := GridCellType.Void } else c) x) =
    (fun c => if c.cell_type = GridCellType.Ghost
              then { c with cell_type := GridCellType.Void } else c) x := by
  intro x
  by_cases h : x.cell_type = GridCellType.Ghost <;> simp [h]

lemma move_shape_grid_empty (shape : ShapeArr) (col row idx gr : Int)
    (c : Fin 10) (r : Fin 22) :
    forEachCell (forEachCell emptyGrid shape col row
        (fun c => { c with cell_type := GridCellType.Shape, shape_index := idx }))
      shape col gr
      (fun c => if c.cell_type = GridCellType.Void
                then { c with cell_type := GridCellType.Ghost } else c) c r =
      if hitBy shape col row c r then ⟨GridCellType.Shape, idx⟩
      else if hitBy shape col gr c r then ⟨GridCellType.Ghost, -1⟩
      else ⟨GridCellType.Void, -1⟩ := by
  rw [forEachCell_apply _ _ _ _ _ ghost_writer_idem,
    forEachCell_apply _ _ _ _ _ (shape_writer_idem idx)]
  by_cases hFP : hitBy shape col row c r <;> by_cases hGH : hitBy shape col gr c r <;>
    simp [hFP, hGH, emptyGrid, defaultGridCell]

lemma ghostRowAux_ge (g : Grid) (sh : ShapeArr) (col : Int) :
    ∀ (fuel : Nat) (gr : Int), gr ≤ ghostRowAux g sh col gr fuel := by
  intro fuel
  induction fuel with
  | zero => intro gr; exact le_refl _
  | succ n ih =>
    intro gr
    show gr ≤ (if validLocation g sh col (gr + 1) true then ghostRowAux g sh col (gr + 1) n
               else gr)
    split
    · exact le_trans (by omega) (ih (gr + 1))
    · exact le_refl _

lemma ghostRowAux_le (g : Grid) (sh : ShapeArr) (col : Int) (i0 : Fin 4)
    (hy : 0 ≤ (sh i0).y) :
    ∀ (fuel : Nat) (gr : Int), gr ≤ 21 → ghostRowAux g sh col gr fuel ≤ 21 := by
  intro fuel
  induction fuel with
  | zero => intro gr h; exact h
  | succ n ih =>
    intro gr h
    show (if validLocation g sh col (gr + 1) true then ghostRowAux g sh col (gr + 1) n
          else gr) ≤ 21
    split
    next hv =>
      apply ih
      have hb := (validLocation_true_iff g sh col (gr + 1) true).mp hv i0
      simp only [transformPoint, ROW_COUNT, not_or] at hb
      omega
    next => exact h

lemma spawn_valid1_empty : ∀ i : Fin 7,
    validLocation emptyGrid (SHAPES i) 5 (0 + 1) true = true := by decide

lemma shapes_first_point : ∀ i : Fin 7, SHAPES i 0 = ⟨0, 0⟩ := by decide

lemma shapes_y_nonpos : ∀ (i : Fin 7) (j : Fin 4), (SHAPES i j).y ≤ 0 := by decide

lemma placed_same_fixed (sh : ShapeArr) (col row idx : Int) :
    ∀ (c : Fin 10) (r : Fin 22),
      ((forEachCell emptyGrid sh col row
          (fun c => { c with cell_type := GridCellType.Shape, shape_index := idx })) c r).cell_type
          = GridCellType.Fixed ↔
        (emptyGrid c r).cell_type = GridCellType.Fixed := by
  intro c r
  rw [forEachCell_apply _ _ _ _ _ (shape_writer_idem idx)]
  split <;> simp [emptyGrid, defaultGridCell]

lemma ghost_row_empty_bounds (sh7 : Fin 7) (idx : Int) :
    1 ≤ ghostRowAux (forEachCell emptyGrid (SHAPES sh7) 5 0
        (fun c => { c with cell_type := GridCellType.Shape, shape_index := idx }))
      (SHAPES sh7) 5 0 GHOST_FUEL ∧
    ghostRowAux (forEachCell emptyGrid (SHAPES sh7) 5 0
        (fun c => { c with cell_type := GridCellType.Shape, shape_index := idx }))
      (SHAPES sh7) 5 0 GHOST_FUEL ≤ 21 := by
  constructor
  · have hval1 : validLocation (forEachCell emptyGrid (SHAPES sh7) 5 0
        (fun c => { c with cell_type := GridCellType.Shape, shape_index := idx }))
        (SHAPES sh7) 5 (0 + 1) true = true := by
      rw [validLocation_fixed_congr (placed_same_fixed (SHAPES sh7) 5 0 idx)]
      exact spawn_valid1_empty sh7
    show 1 ≤ (if validLocation (forEachCell emptyGrid (SHAPES sh7) 5 0
        (fun c => { c with cell_type := GridCellType.Shape, shape_index := idx }))
        (SHAPES sh7) 5 (0 + 1) true = true then
        ghostRowAux (forEachCell emptyGrid (SHAPES sh7) 5 0
          (fun c => { c with cell_type := GridCellType.Shape, shape_index := idx }))
          (SHAPES sh7) 5 (0 + 1) 23
      else 0)
    rw [if_pos hval1]
    exact le_trans (by norm_num) (ghostRowAux_ge _ _ _ 23 (0 + 1))
  · exact ghostRowAux_le _ _ _ 0 (by rw [shapes_first_point sh7]) GHOST_FUEL 0 (by norm_num)

lemma start_game_spec (s : Tetris) (hgo : s.game_over = true) :
    (s.start_game).game_over = false ∧ (s.start_game).score = 0 ∧
    (s.start_game).level = 0 ∧ (s.start_game).col = 5 ∧ (s.start_game).row = 0 ∧
    (s.start_game).shape = SHAPES ⟨s.rng s.rngIdx % 7, Nat.mod_lt _ (by omega)⟩ ∧
    (s.start_game).shape_index = ((s.rng s.rngIdx % 7 : Nat) : Int) ∧
    (∀ (c : Fin 10) (r : Fin 22),
      (s.start_game).grid c r =
        if hitBy (s.start_game).shape (s.start_game).col (s.start_game).row c r then
          ⟨GridCellType.Shape, (s.start_game).shape_index⟩
        else if hitBy (s.start_game).shape (s.start_game).col
            (s.start_game).ghost_row c r then
          ⟨GridCellType.Ghost, -1⟩
        else ⟨GridCellType.Void, -1⟩) ∧
    1 ≤ (s.start_game).ghost_row ∧ (s.start_game).ghost_row ≤ 21 := by
  simp only [Tetris.start_game, Tetris.new_shape, nextRand, Tetris.move_shape, hgo, if_true,
    Bool.false_eq_true, if_false, shapesAt_mod, show COL_COUNT / 2 = (5 : Int) from rfl]
  split
  next hv =>
    refine ⟨rfl, rfl, rfl, rfl, rfl, rfl, rfl, ?_, ?_, ?_⟩
    · intro c r
      dsimp only
      rw [move_shape_grid_empty]
    · exact (ghost_row_empty_bounds _ _).1
    · exact (ghost_row_empty_bounds _ _).2
  next hnv => exact absurd (spawn_valid_empty _) hnv


lemma ghost_cell_violation (st : Tetris) (i7 : Fin 7)
    (hshape : st.shape = SHAPES i7) (hrow : st.row = 0) (hcol : st.col = 5)
    (hgrid : ∀ (c : Fin 10) (r : Fin 22),
      st.grid c r =
        if hitBy st.shape st.col st.row c r then ⟨GridCellType.Shape, st.shape_index⟩
        else if hitBy st.shape st.col st.ghost_row c r then ⟨GridCellType.Ghost, -1⟩
        else ⟨GridCellType.Void, -1⟩)
    (hg1 : 1 ≤ st.ghost_row) (hg21 : st.ghost_row ≤ 21) :
    ∃ (c : Fin 10) (r : Fin 22),
      ¬ hitBy st.shape st.col st.row c r ∧
      (st.grid c r).cell_type ≠ GridCellType.Void := by
  have hge0 : 0 ≤ st.ghost_row := le_trans zero_le_one hg1
  have hbound : st.ghost_row.toNat < 22 := by omega
  have hcast : (((⟨st.ghost_row.toNat, hbound⟩ : Fin 22) : Nat) : Int) = st.ghost_row := by
    show ((st.ghost_row.toNat : Nat) : Int) = st.ghost_row
    omega
  have hnotfp : ¬ hitBy st.shape st.col st.row ⟨5, by omega⟩
      ⟨st.ghost_row.toNat, hbound⟩ := by
    rw [hshape, hrow]
    rintro ⟨i, -, hy⟩
    rw [hcast] at hy
    have hyle := shapes_y_nonpos i7 i
    simp only [transformPoint] at hy
    omega
  refine ⟨⟨5, by omega⟩, ⟨st.ghost_row.toNat, hbound⟩, hnotfp, ?_⟩
  rw [hgrid, if_neg hnotfp, if_pos ?hit]
  case hit =>
    refine ⟨0, ?_, ?_⟩
    · rw [hshape, shapes_first_point, hcol]
      simp only [transformPoint]
      decide
    · rw [hshape, shapes_first_point]
      simp only [transformPoint]
      rw [hcast]
      norm_num
  · decide

/-- C4 counterexample to the claim as stated: after start_game on a
concrete fresh game, some cell outside the active piece's footprint (a
cell of the ghost preview) is not Void. -/
theorem C4_counterexample :
    (Tetris.new (rngConst 0)).game_over = true ∧
    ∃ (c : Fin 10) (r : Fin 22),
      ¬ hitBy ((Tetris.new (rngConst 0)).start_game).shape
          ((Tetris.new (rngConst 0)).start_game).col
          ((Tetris.new (rngConst 0)).start_game).row c r ∧
      (((Tetris.new (rngConst 0)).start_game).grid c r).cell_type ≠
        GridCellType.Void := by
  obtain ⟨-, -, -, hcol, hrow, hshape, -, hgrid, hg1, hg21⟩ :=
    start_game_spec (Tetris.new (rngConst 0)) rfl
  exact ⟨rfl, ghost_cell_violation _ _ hshape hrow hcol hgrid hg1 hg21⟩

/-- C4 (amended): start_game from a game-over state clears the flag, the
score and the level, and the resulting grid is all Void except the
footprint of the freshly spawned active piece (Shape cells) and the ghost
preview of that piece (Ghost cells). -/
theorem C4_start_game_reset (s : Tetris) (hgo : s.game_over = true) :
    (s.start_game).game_over = false ∧ (s.start_game).score = 0 ∧
    (s.start_game).level = 0 ∧
    (∀ (c : Fin 10) (r : Fin 22),
      (s.start_game).grid c r =
        if hitBy (s.start_game).shape (s.start_game).col (s.start_game).row c r then
          ⟨GridCellType.Shape, (s.start_game).shape_index⟩
        else if hitBy (s.start_game).shape (s.start_game).col
            (s.start_game).ghost_row c r then
          ⟨GridCellType.Ghost, -1⟩
        else ⟨GridCellType.Void, -1⟩) := by
  obtain ⟨h1, h2, h3, -, -, -, -, h8, -, -⟩ := start_game_spec s hgo
  exact ⟨h1, h2, h3, h8⟩

/-- C4 witness: the reset facts at a concrete game-over state. -/
theorem C4_witness :
    (Tetris.new (rngConst 0)).game_over = true ∧
    ((Tetris.new (rngConst 0)).start_game).game_over = false ∧
    ((Tetris.new (rngConst 0)).start_game).score = 0 ∧
    ((Tetris.new (rngConst 0)).start_game).level = 0 :=
  ⟨rfl, (C4_start_game_reset _ rfl).1, (C4_start_game_reset _ rfl).2.1,
    (C4_start_game_reset _ rfl).2.2.1⟩

lemma unghost_preserves_fixed (x : GridCell) :
    ((if x.cell_type = GridCellType.Ghost
      then { x with cell_type := GridCellType.Void } else x).cell_type = GridCellType.Fixed ↔
      x.cell_type = GridCellType.Fixed) := by
  by_cases h : x.cell_type = GridCellType.Ghost <;> simp [h]

lemma clear_place_apply (g : Grid) (shape : ShapeArr) (col row grow idx : Int)
    (c : Fin 10) (r : Fin 22) :
    (forEachCell
      (forEachCell
        (forEachCell g shape col row
          (fun c => { c with cell_type := GridCellType.Void, shape_index := -1 }))
        shape col grow
        (fun c => if c.cell_type = GridCellType.Ghost
                  then { c with cell_type := GridCellType.Void } else c))
      shape col row
      (fun c => { c with cell_type := GridCellType.Shape, shape_index := idx })) c r =
    if hitBy shape col row c r then ⟨GridCellType.Shape, idx⟩
    else if hitBy shape col grow c r then
      (if (g c r).cell_type = GridCellType.Ghost
       then { g c r with cell_type := GridCellType.Void } else g c r)
    else g c r := by
  rw [forEachCell_apply _ _ _ _ _ (shape_writer_idem idx),
      forEachCell_apply _ _ _ _ _ unghost_writer_idem,
      forEachCell_apply _ _ _ _ _ void_writer_idem]
  by_cases h1 : hitBy shape col row c r <;> by_cases h2 : hitBy shape col grow c r <;>
    simp [h1, h2]

lemma clear_place_ghost_roundtrip (g : Grid) (shape : ShapeArr) (col row grow idx : Int)
    (hfoot : ∀ (c : Fin 10) (r : Fin 22), hitBy shape col row c r →
      g c r = ⟨GridCellType.Shape, idx⟩)
    (hghost : ∀ (c : Fin 10) (r : Fin 22), hitBy shape col grow c r →
      ¬ hitBy shape col row c r → (g c r).cell_type = GridCellType.Ghost)
    (hgr : grow = ghostRowAux g shape col row GHOST_FUEL) :
    forEachCell
      (forEachCell
        (forEachCell
          (forEachCell g shape col row
            (fun c => { c with cell_type := GridCellType.Void, shape_index := -1 }))
          shape col grow
          (fun c => if c.cell_type = GridCellType.Ghost
                    then { c with cell_type := GridCellType.Void } else c))
        shape col row
        (fun c => { c with cell_type := GridCellType.Shape, shape_index := idx }))
      shape col
      (ghostRowAux
        (forEachCell
          (forEachCell
            (forEachCell g shape col row
              (fun c => { c with cell_type := GridCellType.Void, shape_index := -1 }))
            shape col grow
            (fun c => if c.cell_type = GridCellType.Ghost
                      then { c with cell_type := GridCellType.Void } else c))
          shape col row
          (fun c => { c with cell_type := GridCellType.Shape, shape_index := idx }))
        shape col row GHOST_FUEL)
      (fun c => if c.cell_type = GridCellType.Void
                then { c with cell_type := GridCellType.Ghost } else c) = g := by
  have hsame : ∀ (c : Fin 10) (r : Fin 22),
      ((forEachCell
        (forEachCell
          (forEachCell g shape col row
            (fun c => { c with cell_type := GridCellType.Void, shape_index := -1 }))
          shape col grow
          (fun c => if c.cell_type = GridCellType.Ghost
                    then { c with cell_type := GridCellType.Void } else c))
        shape col row
        (fun c => { c with cell_type := GridCellType.Shape, shape_index := idx })) c r).cell_type
        = GridCellType.Fixed ↔ (g c r).cell_type = GridCellType.Fixed := by
    intro c r
    rw [clear_place_apply]
    by_cases h1 : hitBy shape col row c r
    · rw [if_pos h1, hfoot c r h1]
    · rw [if_neg h1]
      by_cases h2 : hitBy shape col grow c r
      · rw [if_pos h2]
        exact unghost_preserves_fixed (g c r)
      · rw [if_neg h2]
  have hgr2 : ghostRowAux
      (forEachCell
        (forEachCell
          (forEachCell g shape col row
            (fun c => { c with cell_type := GridCellType.Void, shape_index := -1 }))
          shape col grow
          (fun c => if c.cell_type = GridCellType.Ghost
                    then { c with cell_type := GridCellType.Void } else c))
        shape col row
        (fun c => { c with cell_type := GridCellType.Shape, shape_index := idx }))
      shape col row GHOST_FUEL = grow := by
    rw [ghostRowAux_fixed_congr hsame shape col GHOST_FUEL row, hgr]
  funext c r
  rw [forEachCell_apply _ _ _ _ _ ghost_writer_idem, hgr2, clear_place_apply]
  by_cases h1 : hitBy shape col row c r
  · have hf := hfoot c r h1
    by_cases h2 : hitBy shape col grow c r <;> simp [h1, h2, hf]
  · by_cases h2 : hitBy shape col grow c r
    · have hG := hghost c r h2 h1
      rw [if_pos h2, if_neg h1, if_pos h2, if_pos hG]
      show (if (({ g c r with cell_type := GridCellType.Void } : GridCell)).cell_type
          = GridCellType.Void
        then { ({ g c r with cell_type := GridCellType.Void } : GridCell) with
            cell_type := GridCellType.Ghost }
        else ({ g c r with cell_type := GridCellType.Void } : GridCell)) = g c r
      rw [if_pos rfl]
      show (⟨GridCellType.Ghost, (g c r).shape_index⟩ : GridCell) = g c r
      rw [← hG]
    · rw [if_neg h2, if_neg h1, if_neg h2]

/-- C1 (amended): with the square shape active in a running state whose
piece is validly placed (footprint marked Shape, ghost preview marked
Ghost, cached ghost row consistent), rotate skips the rotation but still
returns true, and the grid is left bit-for-bit unchanged. -/
theorem C1_square_rotate (s : Tetris) (cw : Bool)
    (hgo : s.game_over = false)
    (hidx : s.shape_index = SQUARE_SHAPE_INDEX)
    (hsh : s.shape = SHAPES 1)
    (hval : validLocation s.grid s.shape s.col s.row true = true)
    (hfoot : ∀ (c : Fin 10) (r : Fin 22), hitBy s.shape s.col s.row c r →
      s.grid c r = ⟨GridCellType.Shape, s.shape_index⟩)
    (hghost : ∀ (c : Fin 10) (r : Fin 22), hitBy s.shape s.col s.ghost_row c r →
      ¬ hitBy s.shape s.col s.row c r → (s.grid c r).cell_type = GridCellType.Ghost)
    (hgr : s.ghost_row = ghostRowAux s.grid s.shape s.col s.row GHOST_FUEL) :
    (s.rotate cw).2 = true ∧ (s.rotate cw).1.grid = s.grid := by
  have hval2 : validLocation s.grid s.shape s.col s.row false = true :=
    validLocation_mono_sides s.grid s.shape s.col s.row hval
  have h0col : 0 ≤ s.col := by
    have hb := (validLocation_true_iff s.grid s.shape s.col s.row true).mp hval 0
    rw [hsh] at hb
    rw [shapes_first_point] at hb
    simp [transformPoint] at hb
    omega
  simp only [Tetris.rotate, Tetris.wall_kick, hgo, Bool.false_eq_true, if_false, hidx, ne_eq,
    not_true_eq_false, if_true, hval2, Tetris.move_shape, Tetris.clear_shape]
  rw [if_pos h0col]
  constructor
  · rfl
  · show (forEachCell _ _ _ _ _ : Grid) = s.grid
    exact clear_place_ghost_roundtrip s.grid s.shape s.col s.row s.ghost_row
      SQUARE_SHAPE_INDEX (fun c r h => by rw [hfoot c r h, hidx]) hghost hgr

/-- C1 counterexample to the claim as stated: in a concrete running state
whose active shape is the square, rotate returns true, not false. -/
theorem C1_counterexample :
    stSquare.game_over = false ∧ stSquare.shape_index = SQUARE_SHAPE_INDEX ∧
    (stSquare.rotate true).2 = true := by
  refine ⟨rfl, rfl, ?_⟩
  decide

/-- C1 witness: the amended claim at the concrete square state. -/
theorem C1_witness :
    (stSquare.game_over = false ∧ stSquare.shape_index = SQUARE_SHAPE_INDEX ∧
      stSquare.shape = SHAPES 1 ∧
      validLocation stSquare.grid stSquare.shape stSquare.col stSquare.row true = true ∧
      stSquare.ghost_row =
        ghostRowAux stSquare.grid stSquare.shape stSquare.col stSquare.row GHOST_FUEL) ∧
    (stSquare.rotate false).2 = true ∧ (stSquare.rotate false).1.grid = stSquare.grid :=
  ⟨⟨rfl, rfl, rfl, by decide, by decide⟩,
    C1_square_rotate stSquare false rfl rfl rfl (by decide)
      (by decide) (by decide) (by decide)⟩
